import Mathlib

/-!
Verification of the pip-accel configuration and requirement core.

The development shallowly embeds the two modules of the repository:

* `pip_accel/config.py` - layered configuration loading and lookup
  (`Config.__init__`, `Config.available_configuration_files`,
  `Config.load_configuration_file`, `Config.get`, and the derived
  directory properties `source_index`, `binary_cache`, `data_directory`);
* `pip_accel/req.py` - the `Requirement` wrapper (distribution format
  detection, metadata accessors, related archive scanning and the
  freshness timestamp) together with `escape_name` and
  `escape_name_callback`.

Python values of type string-or-None are modelled as `Option String`;
Python exceptions are modelled as `Except PyError` results where a
`PyError` carries the exception class name and the rendered message.
Filesystem state is passed explicitly as functions and lists.
-/

namespace PipAccel

/-- Python exception value: the class name of the exception and the rendered
message text. -/
structure PyError where
  exc : String
  msg : String
  deriving DecidableEq, Repr

/-- Statement that `needle` occurs as a contiguous substring of `haystack`. -/
def containsStr (haystack needle : String) : Prop :=
  ∃ a b, haystack = a ++ needle ++ b

/-- Exception class of a fallible result, when it failed. -/
def errClassOf {α : Type} : Except PyError α → Option String
  | Except.error e => some e.exc
  | Except.ok _ => none

/-! ## Model of pip_accel/config.py -/

/-- Location of the system wide configuration file (config.py line 79). -/
def GLOBAL_CONFIG : String := "/etc/pip-accel.conf"

/-- Location of the user specific configuration file (config.py line 78). -/
def LOCAL_CONFIG : String := "~/.pip-accel/pip-accel.conf"

/-- Truthiness of a Python string-or-None value: None and the empty string
are falsy, every other string is truthy. -/
def pyTruthy : Option String → Bool
  | none => false
  | some s => s ≠ ""

/-- Model of the Python expression `a or b` for string-or-None operands:
the left operand when it is truthy, the right operand otherwise. -/
def pyOr (a b : Option String) : Option String :=
  if pyTruthy a then a else b

/-- Merged configuration map, modelled as an association list in which later
entries shadow earlier ones (the observable behaviour of repeated
`dict.update` calls). -/
abbrev ConfigDict := List (String × String)

/-- Lookup in the merged configuration map: the value of the most recently
written entry for the key, as Python `dict.get` reports it. -/
def dictGet (d : ConfigDict) (k : String) : Option String :=
  (d.reverse.find? (fun kv => kv.fst == k)).map (fun kv => kv.snd)

/-- Model of `dict.update(items)` on the merged configuration map. -/
def dictUpdate (d : ConfigDict) (items : ConfigDict) : ConfigDict :=
  d ++ items

/-- Model of `Config.get` (config.py lines 131-145): the value of the
environment variable `or` the configuration file option `or` the default,
with the Python `or` falsiness rule for None and empty strings. -/
def Config.get (environment : String → Option String) (configuration : ConfigDict)
    (environment_variable : String) (configuration_option : String)
    (default : Option String) : Option String :=
  pyOr (environment environment_variable)
    (pyOr (dictGet configuration configuration_option) default)

/-- State of the filesystem at a candidate configuration path: no file,
a file that `RawConfigParser.read` cannot load, a file without the
pip-accel section, or a file whose pip-accel section parsed to the given
items. -/
inductive FSEntry where
  | missing : FSEntry
  | unreadable : FSEntry
  | noSection : FSEntry
  | parsed : ConfigDict → FSEntry
  deriving DecidableEq

/-- Model of `os.path.isfile` over the filesystem state. -/
def fsIsFile (fs : String → FSEntry) (p : String) : Bool :=
  match fs p with
  | FSEntry.missing => false
  | _ => true

/-- Items of a parsed configuration file, empty for the other states. -/
def parsedItems : FSEntry → ConfigDict
  | FSEntry.parsed items => items
  | _ => []

/-- Model of `Config.available_configuration_files` (config.py lines
102-107): the system wide path, the user specific path and the value of
`PIP_ACCEL_CONFIG`, keeping the truthy entries, normalising each with
`parse_path`, and keeping the paths at which a file exists. -/
def available_configuration_files (environment : String → Option String)
    (parse_path : String → String) (fs : String → FSEntry) : List String :=
  let known_files : List (Option String) :=
    [some GLOBAL_CONFIG, some LOCAL_CONFIG, environment "PIP_ACCEL_CONFIG"]
  let absolute_paths :=
    (known_files.filter pyTruthy).map (fun p => parse_path (p.getD ""))
  absolute_paths.filter (fun p => fsIsFile fs p)

/-- Model of `Config.load_configuration_file` (config.py lines 109-129).
`RawConfigParser.read` loads nothing from a missing or unreadable file, so
the method raises a builtin `Exception` naming the file; a readable file
without the pip-accel section also raises a builtin `Exception` naming the
file; otherwise the items of the section are merged into the configuration
with `dict.update`. The message texts are rendered without the quote
characters of the originals. -/
def load_configuration_file (parse_path : String → String) (fs : String → FSEntry)
    (configuration : ConfigDict) (configuration_file : String) :
    Except PyError ConfigDict :=
  match fs (parse_path configuration_file) with
  | FSEntry.missing =>
      Except.error ⟨"Exception",
        "Failed to load configuration file! (" ++ parse_path configuration_file ++ ")"⟩
  | FSEntry.unreadable =>
      Except.error ⟨"Exception",
        "Failed to load configuration file! (" ++ parse_path configuration_file ++ ")"⟩
  | FSEntry.noSection =>
      Except.error ⟨"Exception",
        "Missing pip-accel section in configuration file! (" ++ parse_path configuration_file ++ ")"⟩
  | FSEntry.parsed items => Except.ok (dictUpdate configuration items)

/-- Model of the configuration file loading performed by `Config.__init__`
(config.py lines 96-100): every available configuration file is loaded in
order, starting from an empty configuration, the first failure
propagating. -/
def loadConfigurationFiles (environment : String → Option String)
    (parse_path : String → String) (fs : String → FSEntry) :
    Except PyError ConfigDict :=
  (available_configuration_files environment parse_path fs).foldlM
    (fun cfg p => load_configuration_file parse_path fs cfg p) []

/-- Boolean test that a string starts with the given piece. -/
def strStartsWith (s p : String) : Bool :=
  p.data.isPrefixOf s.data

/-- Boolean test that a string ends with the given piece. -/
def strEndsWith (s p : String) : Bool :=
  p.data.reverse.isPrefixOf s.data.reverse

/-- Model of `os.path.join` for POSIX paths with two components. -/
def os_path_join (a b : String) : String :=
  if strStartsWith b "/" = true then b
  else if a = "" ∨ strEndsWith a "/" = true then a ++ b
  else a ++ "/" ++ b

/-- Model of `Config.source_index` (config.py lines 172-179): the sources
subdirectory of the data directory. -/
def source_index (data_directory : String) : String :=
  os_path_join data_directory "sources"

/-- Model of `Config.binary_cache` (config.py lines 181-188): the binaries
subdirectory of the data directory. -/
def binary_cache (data_directory : String) : String :=
  os_path_join data_directory "binaries"

/-! ## Model of pip_accel/req.py -/

/-- Model of the decision logic of `Requirement.is_wheel` (req.py lines
137-177) given the two pieces of on-disk evidence: a setup.py build script
(source distribution evidence) and a WHEEL metadata file under a .dist-info
directory (wheel evidence). With exactly one piece of evidence the format
is decided; with both or with neither the method raises
`UnknownDistributionFormat` (the only exception class req.py imports from
pip_accel.exceptions). The message templates are rendered here with the
requirement and the directory substituted and the surrounding whitespace
collapsed; pip_accel.exceptions, which performs the rendering, is not part
of the two source modules. -/
def is_wheel_logic (probably_sdist probably_wheel : Bool)
    (requirement directory : String) : Except PyError Bool :=
  if probably_wheel && !probably_sdist then Except.ok true
  else if probably_sdist && !probably_wheel then Except.ok false
  else if probably_sdist && probably_wheel then
    Except.error ⟨"UnknownDistributionFormat",
      "The unpacked distribution of " ++ requirement ++ " in " ++ directory ++
        " looks like a source distribution and a wheel distribution, I am confused!"⟩
  else
    Except.error ⟨"UnknownDistributionFormat",
      "The unpacked distribution of " ++ requirement ++ " in " ++ directory ++
        " does not look like a source distribution and also does not look like a wheel distribution, I am confused!"⟩

/-- Model of the evidence gathering of `Requirement.is_wheel` (req.py lines
156-157): setup.py is looked up with os.path.isfile in the source
directory, the wheel evidence is a non-empty glob of *.dist-info/WHEEL. -/
def Requirement_is_wheel (isfile : String → Bool)
    (wheel_glob : String → List String)
    (requirement source_directory : String) : Except PyError Bool :=
  is_wheel_logic (isfile (os_path_join source_directory "setup.py"))
    (!(wheel_glob source_directory).isEmpty) requirement source_directory

/-- Wheel distribution object as reported by pkg_resources, reduced to the
field the code reads. -/
structure WheelDist where
  version : String
  deriving DecidableEq, Repr

/-- Model of `Requirement.sdist_metadata` (req.py lines 208-213): a
TypeError for a wheel, the pkg_info metadata otherwise. -/
def sdist_metadata_logic (is_wheel : Bool) (pkg_info : ConfigDict) :
    Except PyError ConfigDict :=
  if is_wheel then
    Except.error ⟨"TypeError", "Requirement is not a source distribution!"⟩
  else Except.ok pkg_info

/-- Model of `Requirement.wheel_metadata` (req.py lines 215-223): a
TypeError for a source distribution, else the first distribution that
pkg_resources finds in the source directory, else an Exception naming the
directory. -/
def wheel_metadata_logic (is_wheel : Bool) (distributions : List WheelDist)
    (source_directory : String) : Except PyError WheelDist :=
  if !is_wheel then
    Except.error ⟨"TypeError", "Requirement is not a wheel distribution!"⟩
  else
    match distributions with
    | d :: _ => Except.ok d
    | [] => Except.error ⟨"Exception",
        "pkg_resources did not find a wheel distribution in " ++
          source_directory ++ "!"⟩

/-- Model of `Requirement.last_modified` (req.py lines 112-125): the
modification times of the related archives, their Python max (a fold of the
binary max over the list) when the list is non-empty, the current time
otherwise. -/
def last_modified (getmtime : String → Int) (related_archives : List String)
    (now : Int) : Int :=
  match related_archives.map getmtime with
  | [] => now
  | t :: ts => ts.foldl max t

/-- Model of `escape_name_callback` (req.py lines 244-252): a dash or an
underscore becomes the character class matching either, any other captured
character is backslash escaped. -/
def escape_name_callback (character : Char) : List Char :=
  if character = '-' ∨ character = '_' then ['[', '-', '_', ']']
  else ['\\', character]

/-- Replacement performed by re.sub for one character of the requirement
name: an alphanumeric character is kept, any other character goes through
escape_name_callback. -/
def escItem (c : Char) : List Char :=
  if c.isAlphanum then [c] else escape_name_callback c

/-- Model of `escape_name` (req.py lines 230-241): re.sub replaces every
character outside A-Za-z0-9 with the result of escape_name_callback and
keeps the alphanumeric characters unchanged. -/
def escape_name (requirement_name : String) : String :=
  String.mk (requirement_name.data.flatMap escItem)

/-- Replacement performed by re.escape for one character: an alphanumeric
character is kept, any other character is backslash escaped. -/
def reEscItem (c : Char) : List Char :=
  if c.isAlphanum then [c] else ['\\', c]

/-- Model of `re.escape` as applied to the version string and the archive
extensions (req.py lines 98 and 101): every character outside A-Za-z0-9 is
backslash escaped. -/
def re_escape (s : String) : String :=
  String.mk (s.data.flatMap reEscItem)

/-- Archive extensions of the vendored distlib
(pip._vendor.distlib.util.ARCHIVE_EXTENSIONS, an external collaborator of
req.py). -/
def ARCHIVE_EXTENSIONS : List String :=
  [".tar.gz", ".tar.bz2", ".tar", ".zip", ".tgz", ".tbz", ".whl"]

/-- Alternation body of the extension group (req.py line 101): the escaped
known archive extensions, the wheel extension excluded, joined with the
alternation bar. -/
def extension_pattern : String :=
  String.intercalate "|"
    ((ARCHIVE_EXTENSIONS.filter (fun e => e ≠ ".whl")).map re_escape)

/-- Pattern string composed by `related_archives` (req.py line 104). -/
def archive_pattern (name version : String) : String :=
  "^" ++ escape_name name ++ "-" ++ re_escape version ++ "(" ++
    extension_pattern ++ ")$"

/-- Tokens of the restricted regular expression language used by the
patterns that related_archives builds: a literal character (possibly
produced by a backslash escape), the character class [-_], and one group of
literal alternatives that closes the pattern. -/
inductive RTok where
  | lit : Char → RTok
  | dashUnd : RTok
  | alts : List (List Char) → RTok
  deriving DecidableEq, Repr

/-- Scan of a group body up to the closing parenthesis, keeping backslash
escapes intact. -/
def takeGroup : List Char → Option (List Char × List Char)
  | [] => none
  | ')' :: rest => some ([], rest)
  | '\\' :: c :: rest =>
    (takeGroup rest).map (fun p => ('\\' :: c :: p.fst, p.snd))
  | c :: rest => (takeGroup rest).map (fun p => (c :: p.fst, p.snd))

/-- Split of a group body at the unescaped alternation bars. -/
def splitGroup (acc : List Char) : List Char → List (List Char)
  | [] => [acc.reverse]
  | '\\' :: c :: rest => splitGroup (c :: '\\' :: acc) rest
  | '|' :: rest => acc.reverse :: splitGroup [] rest
  | c :: rest => splitGroup (c :: acc) rest

/-- Removal of the backslash escapes of one literal alternative. -/
def unescapeLits : List Char → Option (List Char)
  | [] => some []
  | '\\' :: c :: rest => (unescapeLits rest).map (fun l => c :: l)
  | ['\\'] => none
  | c :: rest =>
    if c = '|' ∨ c = '(' ∨ c = ')' ∨ c = '[' ∨ c = ']' ∨ c = '^' ∨ c = '$'
    then none
    else (unescapeLits rest).map (fun l => c :: l)

/-- Token read from the escaped form of one requirement name character: the
class for a dash or underscore, a literal for every other character. -/
def nameTok (c : Char) : RTok :=
  if c = '-' ∨ c = '_' then RTok.dashUnd else RTok.lit c

/-- Tokenizer for the pattern bodies that related_archives builds: a
backslash escape yields a literal, the class [-_] yields the class token,
one group of literal alternatives must close the pattern, and any other
unescaped metacharacter is rejected. -/
def tokenize : List Char → Option (List RTok)
  | [] => some []
  | '\\' :: c :: rest => (tokenize rest).map (fun ts => RTok.lit c :: ts)
  | ['\\'] => none
  | '[' :: '-' :: '_' :: ']' :: rest =>
    (tokenize rest).map (fun ts => RTok.dashUnd :: ts)
  | '(' :: rest =>
    (match takeGroup rest with
     | some (g, []) =>
       (match (splitGroup [] g).mapM unescapeLits with
        | some alternatives => some [RTok.alts alternatives]
        | none => none)
     | _ => none)
  | c :: rest =>
    if c = '|' ∨ c = ')' ∨ c = '[' ∨ c = ']' ∨ c = '^' ∨ c = '$' then none
    else (tokenize rest).map (fun ts => RTok.lit c :: ts)

/-- Case insensitive character comparison, the model of re.IGNORECASE. -/
def charEqCI (a b : Char) : Bool :=
  a.toLower == b.toLower

/-- Consumption of a literal sequence, case insensitively; the rest of the
subject is returned on success. -/
def consumeCI : List Char → List Char → Option (List Char)
  | [], f => some f
  | _ :: _, [] => none
  | c :: cs, fc :: f => if charEqCI c fc then consumeCI cs f else none

/-- Matching of a token list against a whole subject: the semantics of the
anchored case insensitive patterns that related_archives compiles. -/
def matchToks : List RTok → List Char → Bool
  | [], [] => true
  | [], _ :: _ => false
  | RTok.lit _ :: _, [] => false
  | RTok.lit c :: ts, fc :: f => charEqCI c fc && matchToks ts f
  | RTok.dashUnd :: _, [] => false
  | RTok.dashUnd :: ts, fc :: f => (fc == '-' || fc == '_') && matchToks ts f
  | RTok.alts as :: ts, f =>
    as.any (fun a =>
      match consumeCI a f with
      | some rest => matchToks ts rest
      | none => false)

/-- Model of `re.compile(pattern, re.IGNORECASE).match(fn)` for the anchored
patterns built by related_archives: the leading caret and the trailing
dollar are stripped and the body tokens must consume the whole subject.
The dollar anchor is modelled as end of subject; the Python dollar would
also accept a match ending just before one trailing newline character in
the file name. -/
def reMatch (pattern fn : String) : Bool :=
  match pattern.data with
  | '^' :: rest =>
    if rest.getLast? = some '$' then
      match tokenize rest.dropLast with
      | some ts => matchToks ts fn.data
      | none => false
    else false
  | _ => false

/-- Model of `Requirement.related_archives` (req.py lines 83-110): the files
of the source index directory whose names match the archive pattern, case
insensitively, each joined to the source index directory. -/
def related_archives (config_source_index : String) (name version : String)
    (listing : List String) : List String :=
  (listing.filter (fun fn => reMatch (archive_pattern name version) fn)).map
    (fun fn => os_path_join config_source_index fn)

/-- Per-character consumption of the escaped requirement name, as claim C7
states it: a dash or an underscore in the name matches either a dash or an
underscore, any other character matches itself case insensitively. -/
def consumeNamePart : List Char → List Char → Option (List Char)
  | [], f => some f
  | _ :: _, [] => none
  | c :: cs, fc :: f =>
    if c = '-' ∨ c = '_' then
      (if fc == '-' || fc == '_' then consumeNamePart cs f else none)
    else if charEqCI c fc then consumeNamePart cs f else none

/-- Matching rule of claim C7: the file name decomposes as the escaped name,
a dash, the version (case insensitively) and one of the given archive
extensions (case insensitively). -/
def matchesClaim (name version : String) (extensions : List String)
    (fn : String) : Bool :=
  (consumeNamePart name.data fn.data).elim false (fun r1 =>
    (consumeCI ('-' :: version.data) r1).elim false (fun r2 =>
      extensions.any (fun ext => consumeCI ext.data r2 == some [])))

/-- Resolution rule as the amended claim C3 states it: the environment value
when set and non-empty, else the merged file value when present and
non-empty, else the supplied default. -/
def getSpec (env_value file_value default : Option String) : Option String :=
  if pyTruthy env_value then env_value
  else if pyTruthy file_value then file_value
  else default

/-- Example environment for the layered loading witness: only
PIP_ACCEL_CONFIG is set. -/
def envExample : String → Option String :=
  fun v => if v = "PIP_ACCEL_CONFIG" then some "/pointed.conf" else none

/-- Example filesystem for the layered loading witness: all three candidate
configuration files exist, parse, and overlap on the data-directory key. -/
def fsExample : String → FSEntry :=
  fun p =>
    if p = "/etc/pip-accel.conf" then
      FSEntry.parsed [("data-directory", "/sys"), ("s3-bucket", "b1")]
    else if p = "~/.pip-accel/pip-accel.conf" then
      FSEntry.parsed [("data-directory", "/user")]
    else if p = "/pointed.conf" then
      FSEntry.parsed [("data-directory", "/env")]
    else FSEntry.missing

/-! ## Stateful model of the memoized Requirement properties

The cached_property decorator of req.py computes a property on first access
and stores the value on the instance; a raised exception stores nothing.
The model passes the cache state explicitly: every getter returns the
result of the read together with the possibly extended cache. -/

/-- Raw requirement handle as req.py reads it: the project name of the
setuptools requirement, the source directory and editable flag of the pip
requirement, whether comes_from is an InstallRequirement, and the pkg_info
metadata of the unpacked source distribution. -/
structure RawRequirement where
  project_name : String
  source_dir : String
  editable : Bool
  comes_from_is_requirement : Bool
  pkg_info : ConfigDict

/-- Filesystem and package environment read by the Requirement
properties. -/
structure ReqFS where
  isfile : String → Bool
  wheel_glob : String → List String
  find_distributions : String → List WheelDist
  source_index_listing : List String

/-- Cache of the cached_property values of one Requirement instance; a
field is None before its first successful computation. -/
structure ReqCache where
  name : Option String
  version : Option (Option String)
  source_directory : Option String
  is_wheel : Option Bool
  is_transitive : Option Bool
  is_editable : Option Bool
  related_archives : Option (List String)
  sdist_metadata : Option ConfigDict
  wheel_metadata : Option WheelDist
  deriving DecidableEq, Repr

/-- Cache of a freshly constructed Requirement instance. -/
def emptyCache : ReqCache :=
  ⟨none, none, none, none, none, none, none, none, none⟩

/-- Cache with the name field filled. -/
def setName (s : ReqCache) (v : String) : ReqCache :=
  ⟨some v, s.version, s.source_directory, s.is_wheel, s.is_transitive,
    s.is_editable, s.related_archives, s.sdist_metadata, s.wheel_metadata⟩

/-- Cache with the version field filled. -/
def setVersion (s : ReqCache) (v : Option String) : ReqCache :=
  ⟨s.name, some v, s.source_directory, s.is_wheel, s.is_transitive,
    s.is_editable, s.related_archives, s.sdist_metadata, s.wheel_metadata⟩

/-- Cache with the source directory field filled. -/
def setSourceDirectory (s : ReqCache) (v : String) : ReqCache :=
  ⟨s.name, s.version, some v, s.is_wheel, s.is_transitive,
    s.is_editable, s.related_archives, s.sdist_metadata, s.wheel_metadata⟩

/-- Cache with the wheel flag field filled. -/
def setIsWheel (s : ReqCache) (v : Bool) : ReqCache :=
  ⟨s.name, s.version, s.source_directory, some v, s.is_transitive,
    s.is_editable, s.related_archives, s.sdist_metadata, s.wheel_metadata⟩

/-- Cache with the transitive flag field filled. -/
def setIsTransitive (s : ReqCache) (v : Bool) : ReqCache :=
  ⟨s.name, s.version, s.source_directory, s.is_wheel, some v,
    s.is_editable, s.related_archives, s.sdist_metadata, s.wheel_metadata⟩

/-- Cache with the editable flag field filled. -/
def setIsEditable (s : ReqCache) (v : Bool) : ReqCache :=
  ⟨s.name, s.version, s.source_directory, s.is_wheel, s.is_transitive,
    some v, s.related_archives, s.sdist_metadata, s.wheel_metadata⟩

/-- Cache with the related archives field filled. -/
def setRelated (s : ReqCache) (v : List String) : ReqCache :=
  ⟨s.name, s.version, s.source_directory, s.is_wheel, s.is_transitive,
    s.is_editable, some v, s.sdist_metadata, s.wheel_metadata⟩

/-- Cache with the sdist metadata field filled. -/
def setSdistMetadata (s : ReqCache) (v : ConfigDict) : ReqCache :=
  ⟨s.name, s.version, s.source_directory, s.is_wheel, s.is_transitive,
    s.is_editable, s.related_archives, some v, s.wheel_metadata⟩

/-- Cache with the wheel metadata field filled. -/
def setWheelMetadata (s : ReqCache) (v : WheelDist) : ReqCache :=
  ⟨s.name, s.version, s.source_directory, s.is_wheel, s.is_transitive,
    s.is_editable, s.related_archives, s.sdist_metadata, some v⟩

/-- Lookup of one metadata header, first match, case insensitively, as
email.message.Message getitem reports it (the type of pkg_info()). -/
def msgGet (d : ConfigDict) (k : String) : Option String :=
  (d.find? (fun kv => kv.fst.toLower == k.toLower)).map (fun kv => kv.snd)

/-- Memoized read of `Requirement.name` (req.py lines 64-73). -/
def getName (r : RawRequirement) (s : ReqCache) :
    Except PyError String × ReqCache :=
  match s.name with
  | some v => (Except.ok v, s)
  | none => (Except.ok r.project_name, setName s r.project_name)

/-- Memoized read of `Requirement.source_directory` (req.py lines
127-135). -/
def getSourceDirectory (r : RawRequirement) (s : ReqCache) :
    Except PyError String × ReqCache :=
  match s.source_directory with
  | some v => (Except.ok v, s)
  | none => (Except.ok r.source_dir, setSourceDirectory s r.source_dir)

/-- Memoized read of `Requirement.is_transitive` (req.py lines 179-190). -/
def getIsTransitive (r : RawRequirement) (s : ReqCache) :
    Except PyError Bool × ReqCache :=
  match s.is_transitive with
  | some v => (Except.ok v, s)
  | none => (Except.ok r.comes_from_is_requirement,
      setIsTransitive s r.comes_from_is_requirement)

/-- Memoized read of `Requirement.is_editable` (req.py lines 197-206). -/
def getIsEditable (r : RawRequirement) (s : ReqCache) :
    Except PyError Bool × ReqCache :=
  match s.is_editable with
  | some v => (Except.ok v, s)
  | none => (Except.ok r.editable, setIsEditable s r.editable)

/-- Memoized read of `Requirement.is_wheel` (req.py lines 137-177). -/
def getIsWheel (fs : ReqFS) (r : RawRequirement) (s : ReqCache) :
    Except PyError Bool × ReqCache :=
  match s.is_wheel with
  | some v => (Except.ok v, s)
  | none =>
    let p := getSourceDirectory r s
    match p.fst with
    | Except.error e => (Except.error e, p.snd)
    | Except.ok dir =>
      match Requirement_is_wheel fs.isfile fs.wheel_glob r.project_name dir with
      | Except.ok v => (Except.ok v, setIsWheel p.snd v)
      | Except.error e => (Except.error e, p.snd)

/-- Memoized read of `Requirement.sdist_metadata` (req.py lines 208-213). -/
def getSdistMetadata (fs : ReqFS) (r : RawRequirement) (s : ReqCache) :
    Except PyError ConfigDict × ReqCache :=
  match s.sdist_metadata with
  | some v => (Except.ok v, s)
  | none =>
    let p := getIsWheel fs r s
    match p.fst with
    | Except.error e => (Except.error e, p.snd)
    | Except.ok w =>
      match sdist_metadata_logic w r.pkg_info with
      | Except.ok v => (Except.ok v, setSdistMetadata p.snd v)
      | Except.error e => (Except.error e, p.snd)

/-- Memoized read of `Requirement.wheel_metadata` (req.py lines 215-223):
the type check on the wheel flag precedes the source directory read. -/
def getWheelMetadata (fs : ReqFS) (r : RawRequirement) (s : ReqCache) :
    Except PyError WheelDist × ReqCache :=
  match s.wheel_metadata with
  | some v => (Except.ok v, s)
  | none =>
    let p := getIsWheel fs r s
    match p.fst with
    | Except.error e => (Except.error e, p.snd)
    | Except.ok false =>
      (Except.error ⟨"TypeError", "Requirement is not a wheel distribution!"⟩,
        p.snd)
    | Except.ok true =>
      let q := getSourceDirectory r p.snd
      match q.fst with
      | Except.error e => (Except.error e, q.snd)
      | Except.ok dir =>
        match wheel_metadata_logic true (fs.find_distributions dir) dir with
        | Except.ok v => (Except.ok v, setWheelMetadata q.snd v)
        | Except.error e => (Except.error e, q.snd)

/-- Memoized read of `Requirement.version` (req.py lines 75-81): the wheel
metadata version for a wheel, the Version header of the sdist metadata
otherwise (the header read yields None when absent, as the Message type
does). -/
def getVersion (fs : ReqFS) (r : RawRequirement) (s : ReqCache) :
    Except PyError (Option String) × ReqCache :=
  match s.version with
  | some v => (Except.ok v, s)
  | none =>
    let p := getIsWheel fs r s
    match p.fst with
    | Except.error e => (Except.error e, p.snd)
    | Except.ok true =>
      let q := getWheelMetadata fs r p.snd
      match q.fst with
      | Except.error e => (Except.error e, q.snd)
      | Except.ok m => (Except.ok (some m.version),
          setVersion q.snd (some m.version))
    | Except.ok false =>
      let q := getSdistMetadata fs r p.snd
      match q.fst with
      | Except.error e => (Except.error e, q.snd)
      | Except.ok m => (Except.ok (msgGet m "Version"),
          setVersion q.snd (msgGet m "Version"))

/-- Memoized read of `Requirement.related_archives` (req.py lines 83-110):
the name and version feed the archive pattern; a None version would be
rejected by re.escape with a TypeError (Python 2 wording). -/
def getRelatedArchives (idx : String) (fs : ReqFS) (r : RawRequirement)
    (s : ReqCache) : Except PyError (List String) × ReqCache :=
  match s.related_archives with
  | some v => (Except.ok v, s)
  | none =>
    let p := getName r s
    match p.fst with
    | Except.error e => (Except.error e, p.snd)
    | Except.ok n =>
      let q := getVersion fs r p.snd
      match q.fst with
      | Except.error e => (Except.error e, q.snd)
      | Except.ok none =>
        (Except.error ⟨"TypeError", "expected string or buffer"⟩, q.snd)
      | Except.ok (some v) =>
        (Except.ok (related_archives idx n v fs.source_index_listing),
          setRelated q.snd (related_archives idx n v fs.source_index_listing))

/-- Stateless value of the wheel flag. -/
def pureIsWheel (fs : ReqFS) (r : RawRequirement) : Except PyError Bool :=
  Requirement_is_wheel fs.isfile fs.wheel_glob r.project_name r.source_dir

/-- Stateless value of the sdist metadata. -/
def pureSdistMetadata (fs : ReqFS) (r : RawRequirement) :
    Except PyError ConfigDict :=
  match pureIsWheel fs r with
  | Except.error e => Except.error e
  | Except.ok w => sdist_metadata_logic w r.pkg_info

/-- Stateless value of the wheel metadata. -/
def pureWheelMetadata (fs : ReqFS) (r : RawRequirement) :
    Except PyError WheelDist :=
  match pureIsWheel fs r with
  | Except.error e => Except.error e
  | Except.ok w =>
    wheel_metadata_logic w (fs.find_distributions r.source_dir) r.source_dir

/-- Stateless value of the version. -/
def pureVersion (fs : ReqFS) (r : RawRequirement) :
    Except PyError (Option String) :=
  match pureIsWheel fs r with
  | Except.error e => Except.error e
  | Except.ok true =>
    (match pureWheelMetadata fs r with
     | Except.error e => Except.error e
     | Except.ok m => Except.ok (some m.version))
  | Except.ok false =>
    (match pureSdistMetadata fs r with
     | Except.error e => Except.error e
     | Except.ok m => Except.ok (msgGet m "Version"))

/-- Stateless value of the related archive list. -/
def pureRelatedArchives (idx : String) (fs : ReqFS) (r : RawRequirement) :
    Except PyError (List String) :=
  match pureVersion fs r with
  | Except.error e => Except.error e
  | Except.ok none => Except.error ⟨"TypeError", "expected string or buffer"⟩
  | Except.ok (some v) =>
    Except.ok (related_archives idx r.project_name v fs.source_index_listing)

/-- Coherence of a cache: every filled field holds the stateless value of
its property. -/
structure Coherent (idx : String) (fs : ReqFS) (r : RawRequirement)
    (s : ReqCache) : Prop where
  hname : ∀ v, s.name = some v → v = r.project_name
  hsrc : ∀ v, s.source_directory = some v → v = r.source_dir
  hwheel : ∀ v, s.is_wheel = some v → pureIsWheel fs r = Except.ok v
  htrans : ∀ v, s.is_transitive = some v → v = r.comes_from_is_requirement
  hedit : ∀ v, s.is_editable = some v → v = r.editable
  hsdist : ∀ v, s.sdist_metadata = some v →
    pureSdistMetadata fs r = Except.ok v
  hwmeta : ∀ v, s.wheel_metadata = some v →
    pureWheelMetadata fs r = Except.ok v
  hver : ∀ v, s.version = some v → pureVersion fs r = Except.ok v
  hrel : ∀ v, s.related_archives = some v →
    pureRelatedArchives idx fs r = Except.ok v

/-- Derived fields named by claim C9. -/
inductive RField where
  | fname : RField
  | fversion : RField
  | fformat : RField
  | flineage : RField
  | feditable : RField
  | frelated : RField
  deriving DecidableEq, Repr

/-- Observable value of one derived field. -/
inductive RValue where
  | str : String → RValue
  | ostr : Option String → RValue
  | flag : Bool → RValue
  | paths : List String → RValue
  deriving DecidableEq, Repr

/-- One memoized read of a derived field of claim C9. -/
def readField (idx : String) (fs : ReqFS) (r : RawRequirement) (f : RField)
    (s : ReqCache) : Except PyError RValue × ReqCache :=
  match f with
  | RField.fname =>
    ((getName r s).fst.map RValue.str, (getName r s).snd)
  | RField.fversion =>
    ((getVersion fs r s).fst.map RValue.ostr, (getVersion fs r s).snd)
  | RField.fformat =>
    ((getIsWheel fs r s).fst.map RValue.flag, (getIsWheel fs r s).snd)
  | RField.flineage =>
    ((getIsTransitive r s).fst.map RValue.flag, (getIsTransitive r s).snd)
  | RField.feditable =>
    ((getIsEditable r s).fst.map RValue.flag, (getIsEditable r s).snd)
  | RField.frelated =>
    ((getRelatedArchives idx fs r s).fst.map RValue.paths,
      (getRelatedArchives idx fs r s).snd)

/-- Stateless value of a derived field of claim C9. -/
def pureField (idx : String) (fs : ReqFS) (r : RawRequirement) (f : RField) :
    Except PyError RValue :=
  match f with
  | RField.fname => Except.ok (RValue.str r.project_name)
  | RField.fversion => (pureVersion fs r).map RValue.ostr
  | RField.fformat => (pureIsWheel fs r).map RValue.flag
  | RField.flineage => Except.ok (RValue.flag r.comes_from_is_requirement)
  | RField.feditable => Except.ok (RValue.flag r.editable)
  | RField.frelated => (pureRelatedArchives idx fs r).map RValue.paths

/-- Cache state after a sequence of derived field reads. -/
def readFields (idx : String) (fs : ReqFS) (r : RawRequirement)
    (ops : List RField) (s : ReqCache) : ReqCache :=
  ops.foldl (fun s f => (readField idx fs r f s).snd) s

/-! ## Theorems about the configuration model -/

/-- Helper: appending the same string on the right preserves distinctness. -/
theorem append_right_ne {a b : String} (s : String) (h : a ≠ b) :
    a ++ s ≠ b ++ s := by
  intro hc
  apply h
  apply String.ext
  have hd := congrArg String.data hc
  simp only [String.data_append] at hd
  exact List.append_cancel_right hd

/-- Helper: lookup in a concatenation of configuration maps prefers the
later map. -/
theorem dictGet_append (d1 d2 : ConfigDict) (k : String) :
    dictGet (d1 ++ d2) k = (dictGet d2 k).or (dictGet d1 k) := by
  unfold dictGet
  rw [List.reverse_append, List.find?_append]
  cases hf : List.find? (fun kv => kv.fst == k) d2.reverse with
  | some v => simp [hf]
  | none => simp [hf]

/-- Helper: lookup in a flattened list of configuration maps takes the value
from the last map that defines the key. -/
theorem dictGet_flatten (L : List ConfigDict) (k : String) :
    dictGet L.flatten k = L.reverse.findSome? (fun d => dictGet d k) := by
  induction L with
  | nil => rfl
  | cons d t ih =>
    rw [List.flatten_cons, dictGet_append, ih, List.reverse_cons,
      List.findSome?_append]
    cases ht : t.reverse.findSome? (fun d => dictGet d k) with
    | some v => simp [ht, List.findSome?, Option.or]
    | none =>
      simp [ht, List.findSome?, Option.or]
      cases dictGet d k <;> rfl

/-- Helper: every member of the available configuration file list is a fixed
point of parse_path, when parse_path is idempotent. -/
theorem parse_path_fixed_on_available (environment : String → Option String)
    (parse_path : String → String) (fs : String → FSEntry)
    (h_idem : ∀ p, parse_path (parse_path p) = parse_path p)
    (p : String)
    (hp : p ∈ available_configuration_files environment parse_path fs) :
    parse_path p = p := by
  unfold available_configuration_files at hp
  simp only [List.mem_filter, List.mem_map] at hp
  obtain ⟨⟨q, hq, rfl⟩, _⟩ := hp
  exact h_idem _

/-- Helper: folding the file loader over a list of parsed, parse_path-fixed
files merges their items in order. -/
theorem loadFold (parse_path : String → String) (fs : String → FSEntry)
    (files : List String) (cfg : ConfigDict)
    (h : ∀ p ∈ files,
      fs (parse_path p) = FSEntry.parsed (parsedItems (fs p))) :
    files.foldlM (fun c p => load_configuration_file parse_path fs c p) cfg
      = Except.ok (cfg ++ (files.map (fun p => parsedItems (fs p))).flatten) := by
  induction files generalizing cfg with
  | nil =>
    simp only [List.foldlM_nil, List.map_nil, List.flatten_nil, List.append_nil]
    rfl
  | cons a t ih =>
    have ha := h a (List.mem_cons_self a t)
    have step : load_configuration_file parse_path fs cfg a
        = Except.ok (cfg ++ parsedItems (fs a)) := by
      unfold load_configuration_file
      rw [ha]
      rfl
    rw [List.foldlM_cons, step]
    show t.foldlM (fun c p => load_configuration_file parse_path fs c p)
        (cfg ++ parsedItems (fs a)) = _
    rw [ih (cfg ++ parsedItems (fs a)) (fun p hp => h p (List.mem_cons_of_mem a hp))]
    simp [List.append_assoc]

/-- Claim C4: with file loading enabled, the available candidate files are
the existing ones among the system wide path, the user specific path and the
path named by PIP_ACCEL_CONFIG, in that order; when they all parse, loading
merges their items in that order, and lookup in the merged configuration
resolves every key to the value of the last loaded file that defines it. -/
theorem C4_layered_loading (environment : String → Option String)
    (parse_path : String → String) (fs : String → FSEntry)
    (h_idem : ∀ p, parse_path (parse_path p) = parse_path p)
    (h_parsed : ∀ p ∈ available_configuration_files environment parse_path fs,
      ∃ items, fs p = FSEntry.parsed items) :
    available_configuration_files environment parse_path fs
      = (([some GLOBAL_CONFIG, some LOCAL_CONFIG,
            environment "PIP_ACCEL_CONFIG"].filter pyTruthy).map
          (fun p => parse_path (p.getD ""))).filter (fun p => fsIsFile fs p) ∧
    loadConfigurationFiles environment parse_path fs
      = Except.ok (((available_configuration_files environment parse_path fs).map
          (fun p => parsedItems (fs p))).flatten) ∧
    (∀ k, dictGet (((available_configuration_files environment parse_path fs).map
          (fun p => parsedItems (fs p))).flatten) k
       = ((available_configuration_files environment parse_path fs).map
          (fun p => parsedItems (fs p))).reverse.findSome?
          (fun items => dictGet items k)) := by
  refine ⟨rfl, ?_, ?_⟩
  · apply loadFold
    intro p hp
    obtain ⟨items, hi⟩ := h_parsed p hp
    rw [parse_path_fixed_on_available environment parse_path fs h_idem p hp, hi]
    rfl
  · intro k
    rw [dictGet_flatten]

/-- Witness for claim C4: with all three candidate files present and
overlapping on the data-directory key, the merged value is the one from the
file named by the environment variable, loaded last. -/
theorem C4_layered_loading_witness :
    loadConfigurationFiles envExample id fsExample
      = Except.ok [("data-directory", "/sys"), ("s3-bucket", "b1"),
          ("data-directory", "/user"), ("data-directory", "/env")] ∧
    dictGet [("data-directory", "/sys"), ("s3-bucket", "b1"),
        ("data-directory", "/user"), ("data-directory", "/env")]
        "data-directory" = some "/env" := by
  have havail : available_configuration_files envExample id fsExample
      = ["/etc/pip-accel.conf", "~/.pip-accel/pip-accel.conf",
          "/pointed.conf"] := by decide
  have h := C4_layered_loading envExample id fsExample (fun p => rfl)
    (by
      intro p hp
      rw [havail] at hp
      simp only [List.mem_cons, List.not_mem_nil, or_false] at hp
      rcases hp with rfl | rfl | rfl
      · exact ⟨_, rfl⟩
      · exact ⟨_, rfl⟩
      · exact ⟨_, rfl⟩)
  refine ⟨?_, by decide⟩
  rw [h.2.1, havail]
  rfl

/-- Claim C5 amended: a missing candidate file is skipped silently (it never
enters the available configuration file list), while an existing file that
cannot be parsed, or that lacks the pip-accel section, makes loading fail
with a builtin Exception (not a dedicated ConfigurationError class) whose
message names the offending path, and nothing from that file is merged. -/
theorem C5_file_error_handling (environment : String → Option String)
    (parse_path : String → String) (fs : String → FSEntry)
    (cfg : ConfigDict) (q p : String) :
    (fs q = FSEntry.missing →
      q ∉ available_configuration_files environment parse_path fs) ∧
    (fs (parse_path p) = FSEntry.unreadable →
      ∃ e, load_configuration_file parse_path fs cfg p = Except.error e ∧
        e.exc = "Exception" ∧ containsStr e.msg (parse_path p)) ∧
    (fs (parse_path p) = FSEntry.noSection →
      ∃ e, load_configuration_file parse_path fs cfg p = Except.error e ∧
        e.exc = "Exception" ∧ containsStr e.msg (parse_path p)) := by
  refine ⟨?_, ?_, ?_⟩
  · intro h hmem
    unfold available_configuration_files at hmem
    simp only [List.mem_filter] at hmem
    have := hmem.2
    unfold fsIsFile at this
    rw [h] at this
    exact Bool.false_ne_true this
  · intro h
    refine ⟨⟨"Exception",
      "Failed to load configuration file! (" ++ parse_path p ++ ")"⟩, ?_, rfl,
      "Failed to load configuration file! (", ")", rfl⟩
    unfold load_configuration_file
    rw [h]
  · intro h
    refine ⟨⟨"Exception",
      "Missing pip-accel section in configuration file! (" ++ parse_path p ++ ")"⟩,
      ?_, rfl, "Missing pip-accel section in configuration file! (", ")", rfl⟩
    unfold load_configuration_file
    rw [h]

/-- Counterexample to claim C5 as frozen: an existing but unreadable
configuration file raises the builtin Exception class, not a dedicated
ConfigurationError class. -/
theorem C5_counterexample :
    load_configuration_file id
        (fun p => if p = "/etc/pip-accel.conf" then FSEntry.unreadable
          else FSEntry.missing)
        [] "/etc/pip-accel.conf"
      = Except.error ⟨"Exception",
          "Failed to load configuration file! (/etc/pip-accel.conf)"⟩ ∧
    "Exception" ≠ "ConfigurationError" := by
  exact ⟨rfl, by decide⟩

/-- Claim C3 amended: Config.get resolves to the environment variable when it
is set and non-empty, else to the merged file value when it is present and
non-empty, else to the supplied default; an environment variable set to the
empty string counts as unset. -/
theorem C3_get_precedence (environment : String → Option String)
    (configuration : ConfigDict) (ev co : String) (d : Option String) :
    Config.get environment configuration ev co d
      = getSpec (environment ev) (dictGet configuration co) d ∧
    Config.get (fun _ => some "") configuration ev co d
      = Config.get (fun _ => none) configuration ev co d := by
  constructor
  · rfl
  · simp [Config.get, pyOr, pyTruthy]

/-- Counterexample to claim C3 as frozen: with the environment variable
unset, a merged file value that is present but empty, and a supplied
default, Config.get returns the default, not the present file value. -/
theorem C3_counterexample :
    dictGet [("data-directory", "")] "data-directory" = some "" ∧
    Config.get (fun _ => none) [("data-directory", "")] "PIP_ACCEL_CACHE"
        "data-directory" (some "~/.pip-accel") = some "~/.pip-accel" ∧
    some "~/.pip-accel" ≠ (some "" : Option String) := by
  exact ⟨by decide, by decide, by decide⟩

/-- Claim C10: with the environment variable unset or set to the empty
string, an empty merged file value is also treated as unset, so the supplied
default is returned, and with no default the result is None. -/
theorem C10_empty_file_value (ev co : String) (d : Option String) :
    Config.get (fun _ => none) [(co, "")] ev co d = d ∧
    Config.get (fun _ => some "") [(co, "")] ev co d = d ∧
    Config.get (fun _ => none) [(co, "")] ev co none = none := by
  refine ⟨?_, ?_, ?_⟩ <;> simp [Config.get, pyOr, pyTruthy, dictGet]

/-- Claim C8: the source index directory and the binary cache directory are
the sources and binaries subdirectories of the data directory, so two
distinct data directories yield distinct source index directories and
distinct binary cache directories. -/
theorem C8_derived_directories (d e : String)
    (hd0 : d ≠ "") (hd : strEndsWith d "/" = false)
    (he0 : e ≠ "") (he : strEndsWith e "/" = false) :
    source_index d = d ++ "/sources" ∧ binary_cache d = d ++ "/binaries" ∧
    (d ≠ e → source_index d ≠ source_index e ∧
      binary_cache d ≠ binary_cache e) := by
  have hss : ("/" : String) ++ "sources" = "/sources" := by decide
  have hbb : ("/" : String) ++ "binaries" = "/binaries" := by decide
  have hsi : ∀ x : String, x ≠ "" → strEndsWith x "/" = false →
      source_index x = x ++ "/sources" := by
    intro x hx0 hx
    unfold source_index os_path_join
    rw [if_neg (by decide), if_neg]
    · rw [String.append_assoc, hss]
    · rintro (h | h)
      · exact hx0 h
      · rw [hx] at h
        exact Bool.false_ne_true h
  have hbc : ∀ x : String, x ≠ "" → strEndsWith x "/" = false →
      binary_cache x = x ++ "/binaries" := by
    intro x hx0 hx
    unfold binary_cache os_path_join
    rw [if_neg (by decide), if_neg]
    · rw [String.append_assoc, hbb]
    · rintro (h | h)
      · exact hx0 h
      · rw [hx] at h
        exact Bool.false_ne_true h
  refine ⟨hsi d hd0 hd, hbc d hd0 hd, ?_⟩
  intro hne
  constructor
  · rw [hsi d hd0 hd, hsi e he0 he]
    exact append_right_ne "/sources" hne
  · rw [hbc d hd0 hd, hbc e he0 he]
    exact append_right_ne "/binaries" hne

/-- Helper: prepending the same string on the left preserves distinctness. -/
theorem append_left_ne (a : String) {s t : String} (h : s ≠ t) :
    a ++ s ≠ a ++ t := by
  intro hc
  apply h
  apply String.ext
  have hd := congrArg String.data hc
  simp only [String.data_append] at hd
  exact List.append_cancel_left hd

/-- Claim C1 amended: with exactly one piece of evidence the detected format
is the matching one; with both pieces present, and likewise with neither,
detection fails with UnknownDistributionFormat (req.py defines no separate
AmbiguousDistributionFormat class), the two failure messages are distinct,
and each failure message names the requirement and the directory. -/
theorem C1_format_detection (r d : String) :
    is_wheel_logic false true r d = Except.ok true ∧
    is_wheel_logic true false r d = Except.ok false ∧
    (∃ e1 e2, is_wheel_logic true true r d = Except.error e1 ∧
      is_wheel_logic false false r d = Except.error e2 ∧
      e1.exc = "UnknownDistributionFormat" ∧
      e2.exc = "UnknownDistributionFormat" ∧
      containsStr e1.msg r ∧ containsStr e1.msg d ∧
      containsStr e2.msg r ∧ containsStr e2.msg d ∧
      e1.msg ≠ e2.msg) := by
  refine ⟨rfl, rfl, ⟨_, _, rfl, rfl, rfl, rfl, ?_, ?_, ?_, ?_, ?_⟩⟩
  · exact ⟨"The unpacked distribution of ",
      " in " ++ d ++
        " looks like a source distribution and a wheel distribution, I am confused!",
      by simp [String.append_assoc]⟩
  · exact ⟨"The unpacked distribution of " ++ r ++ " in ",
      " looks like a source distribution and a wheel distribution, I am confused!",
      rfl⟩
  · exact ⟨"The unpacked distribution of ",
      " in " ++ d ++
        " does not look like a source distribution and also does not look like a wheel distribution, I am confused!",
      by simp [String.append_assoc]⟩
  · exact ⟨"The unpacked distribution of " ++ r ++ " in ",
      " does not look like a source distribution and also does not look like a wheel distribution, I am confused!",
      rfl⟩
  · exact append_left_ne _ (by decide)

/-- Counterexample to claim C1 as frozen: with both pieces of evidence
present the raised exception class is UnknownDistributionFormat, not
AmbiguousDistributionFormat. -/
theorem C1_counterexample :
    errClassOf (is_wheel_logic true true "cffi" "/tmp/build/cffi")
      = some "UnknownDistributionFormat" ∧
    some "UnknownDistributionFormat" ≠ some "AmbiguousDistributionFormat" := by
  exact ⟨rfl, by decide⟩

/-- Claim C2: reading the source distribution metadata of a wheel, or the
wheel metadata of a source distribution, fails with a TypeError (the
type-mismatch failure), while the matching accessor never raises that
error. -/
theorem C2_metadata_accessors (pkg_info : ConfigDict) (dists : List WheelDist)
    (dir : String) :
    errClassOf (sdist_metadata_logic true pkg_info) = some "TypeError" ∧
    errClassOf (wheel_metadata_logic false dists dir) = some "TypeError" ∧
    sdist_metadata_logic false pkg_info = Except.ok pkg_info ∧
    errClassOf (wheel_metadata_logic true dists dir) ≠ some "TypeError" := by
  refine ⟨rfl, rfl, rfl, ?_⟩
  cases dists with
  | nil =>
    simp only [wheel_metadata_logic, Bool.not_true, Bool.false_eq_true,
      if_false, errClassOf]
    decide
  | cons a t =>
    simp [wheel_metadata_logic, errClassOf]

/-- Claim C6: the freshness timestamp equals the maximum modification time
over the related archives when any exist (it is one of the modification
times and an upper bound of all of them) and equals the current time when
there are none. -/
theorem C6_last_modified (getmtime : String → Int) (rel : List String)
    (now : Int) :
    last_modified getmtime rel now = ((rel.map getmtime).max?).getD now ∧
    last_modified getmtime [] now = now ∧
    (rel ≠ [] →
      last_modified getmtime rel now ∈ rel.map getmtime ∧
      ∀ t ∈ rel.map getmtime, t ≤ last_modified getmtime rel now) := by
  have key : ∀ l : List Int,
      (match l with
       | ([] : List Int) => now
       | t :: ts => ts.foldl max t) = l.max?.getD now := by
    intro l
    cases l with
    | nil => rfl
    | cons t ts => rfl
  have h1 : last_modified getmtime rel now
      = ((rel.map getmtime).max?).getD now := key (rel.map getmtime)
  refine ⟨h1, rfl, ?_⟩
  intro hne
  have hl : rel.map getmtime ≠ [] := by
    intro hc
    exact hne (List.map_eq_nil_iff.mp hc)
  cases hmx : (rel.map getmtime).max? with
  | none => exact absurd (List.max?_eq_none_iff.mp hmx) hl
  | some m =>
    have hv : last_modified getmtime rel now = m := by
      rw [h1, hmx]
      rfl
    constructor
    · rw [hv]
      exact List.max?_mem (fun a b => max_choice a b) hmx
    · intro t ht
      rw [hv]
      exact ((List.max?_le_iff (fun a b c => max_le_iff) hmx).mp le_rfl) t ht

/-- Helper: an alphanumeric character differs from any fixed character that
is not alphanumeric. -/
theorem alnum_ne {c : Char} (h : c.isAlphanum = true) (x : Char)
    (hx : x.isAlphanum = false) : c ≠ x := by
  intro hc
  rw [hc, hx] at h
  exact Bool.false_ne_true h

/-- Helper: tokenizing a plain non-special character yields a literal
token. -/
theorem tokenize_cons_plain (c : Char) (l : List Char)
    (h1 : c ≠ '\\') (h2 : c ≠ '[') (h3 : c ≠ '(')
    (h4 : ¬(c = '|' ∨ c = ')' ∨ c = '[' ∨ c = ']' ∨ c = '^' ∨ c = '$')) :
    tokenize (c :: l) = (tokenize l).map (fun ts => RTok.lit c :: ts) := by
  rw [tokenize.eq_6 c l (fun _ _ hc _ => h1 hc) (fun hc _ => h1 hc)
    (fun _ hc _ => h2 hc) (fun hc => h3 hc), if_neg h4]

/-- Helper: tokenizing a backslash escape yields a literal token for the
escaped character. -/
theorem tokenize_cons_escaped (c : Char) (l : List Char) :
    tokenize ('\\' :: c :: l) = (tokenize l).map (fun ts => RTok.lit c :: ts) :=
  rfl

/-- Helper: tokenizing the class [-_] yields the class token. -/
theorem tokenize_cons_dashund (l : List Char) :
    tokenize ('[' :: '-' :: '_' :: ']' :: l)
      = (tokenize l).map (fun ts => RTok.dashUnd :: ts) :=
  rfl

/-- Helper: tokenizing the escaped form of a requirement name, followed by
any tokenizable rest, yields the per-character name tokens followed by the
tokens of the rest. -/
theorem tokenize_escape_append (cs : List Char) (rest : List Char)
    (ts : List RTok) (h : tokenize rest = some ts) :
    tokenize (cs.flatMap escItem ++ rest) = some (cs.map nameTok ++ ts) := by
  induction cs with
  | nil => simpa using h
  | cons c cs ih =>
    by_cases ha : c.isAlphanum = true
    · have h1 := alnum_ne ha '\\' (by decide)
      have h2 := alnum_ne ha '[' (by decide)
      have h3 := alnum_ne ha '(' (by decide)
      have h4 : ¬(c = '|' ∨ c = ')' ∨ c = '[' ∨ c = ']' ∨ c = '^' ∨ c = '$') := by
        rintro (hc | hc | hc | hc | hc | hc)
        · exact alnum_ne ha '|' (by decide) hc
        · exact alnum_ne ha ')' (by decide) hc
        · exact alnum_ne ha '[' (by decide) hc
        · exact alnum_ne ha ']' (by decide) hc
        · exact alnum_ne ha '^' (by decide) hc
        · exact alnum_ne ha '$' (by decide) hc
      have hnt : nameTok c = RTok.lit c := by
        unfold nameTok
        rw [if_neg]
        rintro (hc | hc)
        · exact alnum_ne ha '-' (by decide) hc
        · exact alnum_ne ha '_' (by decide) hc
      simp only [List.flatMap_cons, escItem, if_pos ha, List.cons_append,
        List.nil_append, List.append_assoc]
      rw [tokenize_cons_plain c _ h1 h2 h3 h4, ih]
      simp [hnt]
    · by_cases hd : c = '-' ∨ c = '_'
      · have hcb : escape_name_callback c = ['[', '-', '_', ']'] := by
          unfold escape_name_callback
          rw [if_pos hd]
        have hnt : nameTok c = RTok.dashUnd := by
          unfold nameTok
          rw [if_pos hd]
        simp only [List.flatMap_cons, escItem, if_neg ha, hcb,
          List.cons_append, List.nil_append, List.append_assoc]
        rw [tokenize_cons_dashund, ih]
        simp [hnt]
      · have hcb : escape_name_callback c = ['\\', c] := by
          unfold escape_name_callback
          rw [if_neg hd]
        have hnt : nameTok c = RTok.lit c := by
          unfold nameTok
          rw [if_neg hd]
        simp only [List.flatMap_cons, escItem, if_neg ha, hcb,
          List.cons_append, List.nil_append, List.append_assoc]
        rw [tokenize_cons_escaped, ih]
        simp [hnt]

/-- Helper: tokenizing the re.escape form of a string, followed by any
tokenizable rest, yields literal tokens for its characters followed by the
tokens of the rest. -/
theorem tokenize_re_escape_append (cs : List Char) (rest : List Char)
    (ts : List RTok) (h : tokenize rest = some ts) :
    tokenize (cs.flatMap reEscItem ++ rest) = some (cs.map RTok.lit ++ ts) := by
  induction cs with
  | nil => simpa using h
  | cons c cs ih =>
    by_cases ha : c.isAlphanum = true
    · have h1 := alnum_ne ha '\\' (by decide)
      have h2 := alnum_ne ha '[' (by decide)
      have h3 := alnum_ne ha '(' (by decide)
      have h4 : ¬(c = '|' ∨ c = ')' ∨ c = '[' ∨ c = ']' ∨ c = '^' ∨ c = '$') := by
        rintro (hc | hc | hc | hc | hc | hc)
        · exact alnum_ne ha '|' (by decide) hc
        · exact alnum_ne ha ')' (by decide) hc
        · exact alnum_ne ha '[' (by decide) hc
        · exact alnum_ne ha ']' (by decide) hc
        · exact alnum_ne ha '^' (by decide) hc
        · exact alnum_ne ha '$' (by decide) hc
      simp only [List.flatMap_cons, reEscItem, if_pos ha, List.cons_append,
        List.nil_append, List.append_assoc]
      rw [tokenize_cons_plain c _ h1 h2 h3 h4, ih]
      simp
    · simp only [List.flatMap_cons, reEscItem, if_neg ha, List.cons_append,
        List.nil_append, List.append_assoc]
      rw [tokenize_cons_escaped, ih]
      simp

/-- Helper: a predicate over a mapped list is the composed predicate over
the original list. -/
theorem any_map_general {U V : Type} (l : List U) (f : U → V) (p : V → Bool) :
    (l.map f).any p = l.any (fun a => p (f a)) := by
  induction l with
  | nil => rfl
  | cons a t ih => simp [ih]

/-- Helper: congruence for a case analysis on an optional value. -/
theorem match_step {α β : Type} (o : Option α) (f g : α → β) (b : β)
    (hfg : ∀ a, f a = g a) :
    o.elim b f = o.elim b g := by
  cases o with
  | none => rfl
  | some a => exact hfg a

/-- Helper: matching name tokens followed by further tokens consumes the
subject through consumeNamePart. -/
theorem matchToks_name_append (cs : List Char) (ts : List RTok)
    (f : List Char) :
    matchToks (cs.map nameTok ++ ts) f
      = (consumeNamePart cs f).elim false (fun r => matchToks ts r) := by
  induction cs generalizing f with
  | nil => simp [consumeNamePart]
  | cons c cs ih =>
    cases f with
    | nil =>
      by_cases hd : c = '-' ∨ c = '_' <;>
        simp [nameTok, hd, matchToks, consumeNamePart]
    | cons fc f =>
      by_cases hd : c = '-' ∨ c = '_'
      · simp only [List.map_cons, List.cons_append, nameTok, if_pos hd,
          matchToks, consumeNamePart]
        cases hb : (fc == '-' || fc == '_') <;> simp [hb, ih]
      · simp only [List.map_cons, List.cons_append, nameTok, if_neg hd,
          matchToks, consumeNamePart]
        cases hb : charEqCI c fc <;> simp [hd, hb, ih]

/-- Helper: matching literal tokens followed by further tokens consumes the
subject through consumeCI. -/
theorem matchToks_lit_append (cs : List Char) (ts : List RTok)
    (f : List Char) :
    matchToks (cs.map RTok.lit ++ ts) f
      = (consumeCI cs f).elim false (fun r => matchToks ts r) := by
  induction cs generalizing f with
  | nil => simp [consumeCI]
  | cons c cs ih =>
    cases f with
    | nil => simp [matchToks, consumeCI]
    | cons fc f =>
      simp only [List.map_cons, List.cons_append, matchToks, consumeCI]
      cases hb : charEqCI c fc <;> simp [hb, ih]

/-- Helper: a trailing alternation group matches exactly when one
alternative consumes the whole remaining subject. -/
theorem matchToks_alts (as : List (List Char)) (f : List Char) :
    matchToks [RTok.alts as] f
      = as.any (fun a => consumeCI a f == some []) := by
  have hpt : ∀ a : List Char,
      (match consumeCI a f with
       | some rest => matchToks [] rest
       | none => false) = (consumeCI a f == some []) := by
    intro a
    cases h : consumeCI a f with
    | none => rfl
    | some r =>
      cases r with
      | nil => rfl
      | cons x xs => simp [matchToks]
  show as.any (fun a =>
      match consumeCI a f with
      | some rest => matchToks [] rest
      | none => false) = _
  rw [funext hpt]

/-- Helper: the pattern text composed by related_archives, as a character
list: the caret, the escaped name, a dash, the escaped version, the
parenthesised extension alternation, and the dollar. -/
theorem archive_pattern_data (name version : String) :
    (archive_pattern name version).data
      = '^' :: ((name.data.flatMap escItem ++
          '-' :: (version.data.flatMap reEscItem ++
            '(' :: (extension_pattern.data ++ [')']))) ++ ['$']) := by
  simp [archive_pattern, escape_name, re_escape, String.data_append,
    String.mk, List.append_assoc]

/-- Helper: the compiled archive pattern matches a file name exactly when
the claim-side decomposition does. -/
theorem reMatch_eq_matchesClaim (name version fn : String) :
    reMatch (archive_pattern name version) fn
      = matchesClaim name version
          (ARCHIVE_EXTENSIONS.filter (fun e => e ≠ ".whl")) fn := by
  have hgrp : tokenize ('(' :: (extension_pattern.data ++ [')']))
      = some [RTok.alts
          ((ARCHIVE_EXTENSIONS.filter (fun e => e ≠ ".whl")).map
            String.data)] := by decide
  have hver : tokenize (version.data.flatMap reEscItem ++
      '(' :: (extension_pattern.data ++ [')']))
      = some (version.data.map RTok.lit ++ [RTok.alts
          ((ARCHIVE_EXTENSIONS.filter (fun e => e ≠ ".whl")).map
            String.data)]) :=
    tokenize_re_escape_append version.data _ _ hgrp
  have hdash : tokenize ('-' :: (version.data.flatMap reEscItem ++
      '(' :: (extension_pattern.data ++ [')'])))
      = some (RTok.lit '-' :: (version.data.map RTok.lit ++ [RTok.alts
          ((ARCHIVE_EXTENSIONS.filter (fun e => e ≠ ".whl")).map
            String.data)])) := by
    rw [tokenize_cons_plain '-' _ (by decide) (by decide) (by decide)
      (by decide), hver]
    rfl
  have hname : tokenize (name.data.flatMap escItem ++
      '-' :: (version.data.flatMap reEscItem ++
        '(' :: (extension_pattern.data ++ [')'])))
      = some (name.data.map nameTok ++ RTok.lit '-' ::
          (version.data.map RTok.lit ++ [RTok.alts
            ((ARCHIVE_EXTENSIONS.filter (fun e => e ≠ ".whl")).map
              String.data)])) :=
    tokenize_escape_append name.data _ _ hdash
  have hcons : RTok.lit '-' :: (version.data.map RTok.lit ++ [RTok.alts
      ((ARCHIVE_EXTENSIONS.filter (fun e => e ≠ ".whl")).map String.data)])
      = ('-' :: version.data).map RTok.lit ++ [RTok.alts
        ((ARCHIVE_EXTENSIONS.filter (fun e => e ≠ ".whl")).map
          String.data)] := by
    simp
  unfold reMatch
  rw [archive_pattern_data]
  simp only [List.getLast?_concat, List.dropLast_concat, reduceIte, hname]
  rw [matchToks_name_append]
  unfold matchesClaim
  refine match_step _ _ _ _ ?_
  intro r1
  rw [hcons, matchToks_lit_append]
  refine match_step _ _ _ _ ?_
  intro r2
  rw [matchToks_alts, any_map_general]

/-- Claim C7: membership in relatedArchives is exactly membership of a
listing entry matching the pattern escaped-name, dash, escaped version,
known non-wheel archive extension, case insensitively, with dashes and
underscores in the name treated as interchangeable and every other
non-alphanumeric character escaped literally; and escape_name rewrites
py-test_pkg to py[-_]test[-_]pkg. -/
theorem C7_related_archives (idx name version : String)
    (listing : List String) (p : String) :
    (p ∈ related_archives idx name version listing ↔
      ∃ fn, fn ∈ listing ∧
        matchesClaim name version
          (ARCHIVE_EXTENSIONS.filter (fun e => e ≠ ".whl")) fn = true ∧
        p = os_path_join idx fn) ∧
    escape_name "py-test_pkg" = "py[-_]test[-_]pkg" := by
  constructor
  · unfold related_archives
    simp only [List.mem_map, List.mem_filter, reMatch_eq_matchesClaim]
    constructor
    · rintro ⟨fn, ⟨hin, hm⟩, rfl⟩
      exact ⟨fn, hin, hm, rfl⟩
    · rintro ⟨fn, hin, hm, rfl⟩
      exact ⟨fn, ⟨hin, hm⟩, rfl⟩
  · decide

/-- Witness for claim C7: a concrete scan of a source index listing keeps
the separator and case insensitive matches and drops the wheel and the
mismatching entry. -/
theorem C7_related_archives_witness :
    related_archives "/idx" "py-test_pkg" "1.0"
        ["py_test-pkg-1.0.tar.gz", "PY-TEST_PKG-1.0.ZIP",
          "py-test_pkg-1.0.whl", "other-1.0.tar.gz"]
      = ["/idx/py_test-pkg-1.0.tar.gz", "/idx/PY-TEST_PKG-1.0.ZIP"] := by
  decide

/-- Witness for claim C6 at a concrete archive list and time. -/
theorem C6_last_modified_witness :
    last_modified (fun p => if p = "a" then 7 else 3) ["a", "b"] 0 = 7 := by
  have h := C6_last_modified (fun p => if p = "a" then 7 else 3) ["a", "b"] 0
  rw [h.1]
  decide

/-- Witness for claim C8 at two concrete data directories. -/
theorem C8_derived_directories_witness :
    source_index "/var/cache/pip-accel" = "/var/cache/pip-accel" ++ "/sources" ∧
    binary_cache "/var/cache/pip-accel" = "/var/cache/pip-accel" ++ "/binaries" ∧
    ("/var/cache/pip-accel" ≠ "/home/user/.pip-accel" →
      source_index "/var/cache/pip-accel" ≠ source_index "/home/user/.pip-accel" ∧
      binary_cache "/var/cache/pip-accel" ≠ binary_cache "/home/user/.pip-accel") :=
  C8_derived_directories "/var/cache/pip-accel" "/home/user/.pip-accel"
    (by decide) (by decide) (by decide) (by decide)

/-! ## Theorems about the memoized Requirement properties -/

/-- Helper: filling the name field preserves coherence. -/
theorem coherent_setName (idx : String) (fs : ReqFS) (r : RawRequirement)
    (s : ReqCache) (h : Coherent idx fs r s) :
    Coherent idx fs r (setName s r.project_name) := by
  obtain ⟨h1, h2, h3, h4, h5, h6, h7, h8, h9⟩ := h
  refine ⟨?_, ?_, ?_, ?_, ?_, ?_, ?_, ?_, ?_⟩ <;> intro v hv <;>
    simp only [setName, Option.some.injEq] at hv
  · exact hv.symm
  · exact h2 v hv
  · exact h3 v hv
  · exact h4 v hv
  · exact h5 v hv
  · exact h6 v hv
  · exact h7 v hv
  · exact h8 v hv
  · exact h9 v hv

/-- Helper: filling the source directory field preserves coherence. -/
theorem coherent_setSourceDirectory (idx : String) (fs : ReqFS)
    (r : RawRequirement) (s : ReqCache) (h : Coherent idx fs r s) :
    Coherent idx fs r (setSourceDirectory s r.source_dir) := by
  obtain ⟨h1, h2, h3, h4, h5, h6, h7, h8, h9⟩ := h
  refine ⟨?_, ?_, ?_, ?_, ?_, ?_, ?_, ?_, ?_⟩ <;> intro v hv <;>
    simp only [setSourceDirectory, Option.some.injEq] at hv
  · exact h1 v hv
  · exact hv.symm
  · exact h3 v hv
  · exact h4 v hv
  · exact h5 v hv
  · exact h6 v hv
  · exact h7 v hv
  · exact h8 v hv
  · exact h9 v hv

/-- Helper: filling the transitive flag field preserves coherence. -/
theorem coherent_setIsTransitive (idx : String) (fs : ReqFS)
    (r : RawRequirement) (s : ReqCache) (h : Coherent idx fs r s) :
    Coherent idx fs r (setIsTransitive s r.comes_from_is_requirement) := by
  obtain ⟨h1, h2, h3, h4, h5, h6, h7, h8, h9⟩ := h
  refine ⟨?_, ?_, ?_, ?_, ?_, ?_, ?_, ?_, ?_⟩ <;> intro v hv <;>
    simp only [setIsTransitive, Option.some.injEq] at hv
  · exact h1 v hv
  · exact h2 v hv
  · exact h3 v hv
  · exact hv.symm
  · exact h5 v hv
  · exact h6 v hv
  · exact h7 v hv
  · exact h8 v hv
  · exact h9 v hv

/-- Helper: filling the editable flag field preserves coherence. -/
theorem coherent_setIsEditable (idx : String) (fs : ReqFS)
    (r : RawRequirement) (s : ReqCache) (h : Coherent idx fs r s) :
    Coherent idx fs r (setIsEditable s r.editable) := by
  obtain ⟨h1, h2, h3, h4, h5, h6, h7, h8, h9⟩ := h
  refine ⟨?_, ?_, ?_, ?_, ?_, ?_, ?_, ?_, ?_⟩ <;> intro v hv <;>
    simp only [setIsEditable, Option.some.injEq] at hv
  · exact h1 v hv
  · exact h2 v hv
  · exact h3 v hv
  · exact h4 v hv
  · exact hv.symm
  · exact h6 v hv
  · exact h7 v hv
  · exact h8 v hv
  · exact h9 v hv

/-- Helper: filling the wheel flag field with its stateless value preserves
coherence. -/
theorem coherent_setIsWheel (idx : String) (fs : ReqFS) (r : RawRequirement)
    (s : ReqCache) (h : Coherent idx fs r s) (w : Bool)
    (hw : pureIsWheel fs r = Except.ok w) :
    Coherent idx fs r (setIsWheel s w) := by
  obtain ⟨h1, h2, h3, h4, h5, h6, h7, h8, h9⟩ := h
  refine ⟨?_, ?_, ?_, ?_, ?_, ?_, ?_, ?_, ?_⟩ <;> intro v hv <;>
    simp only [setIsWheel, Option.some.injEq] at hv
  · exact h1 v hv
  · exact h2 v hv
  · rw [← hv]
    exact hw
  · exact h4 v hv
  · exact h5 v hv
  · exact h6 v hv
  · exact h7 v hv
  · exact h8 v hv
  · exact h9 v hv

/-- Helper: filling the sdist metadata field with its stateless value
preserves coherence. -/
theorem coherent_setSdistMetadata (idx : String) (fs : ReqFS)
    (r : RawRequirement) (s : ReqCache) (h : Coherent idx fs r s)
    (m : ConfigDict) (hm : pureSdistMetadata fs r = Except.ok m) :
    Coherent idx fs r (setSdistMetadata s m) := by
  obtain ⟨h1, h2, h3, h4, h5, h6, h7, h8, h9⟩ := h
  refine ⟨?_, ?_, ?_, ?_, ?_, ?_, ?_, ?_, ?_⟩ <;> intro v hv <;>
    simp only [setSdistMetadata, Option.some.injEq] at hv
  · exact h1 v hv
  · exact h2 v hv
  · exact h3 v hv
  · exact h4 v hv
  · exact h5 v hv
  · rw [← hv]
    exact hm
  · exact h7 v hv
  · exact h8 v hv
  · exact h9 v hv

/-- Helper: filling the wheel metadata field with its stateless value
preserves coherence. -/
theorem coherent_setWheelMetadata (idx : String) (fs : ReqFS)
    (r : RawRequirement) (s : ReqCache) (h : Coherent idx fs r s)
    (m : WheelDist) (hm : pureWheelMetadata fs r = Except.ok m) :
    Coherent idx fs r (setWheelMetadata s m) := by
  obtain ⟨h1, h2, h3, h4, h5, h6, h7, h8, h9⟩ := h
  refine ⟨?_, ?_, ?_, ?_, ?_, ?_, ?_, ?_, ?_⟩ <;> intro v hv <;>
    simp only [setWheelMetadata, Option.some.injEq] at hv
  · exact h1 v hv
  · exact h2 v hv
  · exact h3 v hv
  · exact h4 v hv
  · exact h5 v hv
  · exact h6 v hv
  · rw [← hv]
    exact hm
  · exact h8 v hv
  · exact h9 v hv

/-- Helper: filling the version field with its stateless value preserves
coherence. -/
theorem coherent_setVersion (idx : String) (fs : ReqFS) (r : RawRequirement)
    (s : ReqCache) (h : Coherent idx fs r s) (w : Option String)
    (hw : pureVersion fs r = Except.ok w) :
    Coherent idx fs r (setVersion s w) := by
  obtain ⟨h1, h2, h3, h4, h5, h6, h7, h8, h9⟩ := h
  refine ⟨?_, ?_, ?_, ?_, ?_, ?_, ?_, ?_, ?_⟩ <;> intro v hv <;>
    simp only [setVersion, Option.some.injEq] at hv
  · exact h1 v hv
  · exact h2 v hv
  · exact h3 v hv
  · exact h4 v hv
  · exact h5 v hv
  · exact h6 v hv
  · exact h7 v hv
  · rw [← hv]
    exact hw
  · exact h9 v hv

/-- Helper: filling the related archives field with its stateless value
preserves coherence. -/
theorem coherent_setRelated (idx : String) (fs : ReqFS) (r : RawRequirement)
    (s : ReqCache) (h : Coherent idx fs r s) (w : List String)
    (hw : pureRelatedArchives idx fs r = Except.ok w) :
    Coherent idx fs r (setRelated s w) := by
  obtain ⟨h1, h2, h3, h4, h5, h6, h7, h8, h9⟩ := h
  refine ⟨?_, ?_, ?_, ?_, ?_, ?_, ?_, ?_, ?_⟩ <;> intro v hv <;>
    simp only [setRelated, Option.some.injEq] at hv
  · exact h1 v hv
  · exact h2 v hv
  · exact h3 v hv
  · exact h4 v hv
  · exact h5 v hv
  · exact h6 v hv
  · exact h7 v hv
  · exact h8 v hv
  · rw [← hv]
    exact hw

/-- Helper: a memoized name read returns the stateless name and keeps the
cache coherent. -/
theorem getName_spec (idx : String) (fs : ReqFS) (r : RawRequirement)
    (s : ReqCache) (h : Coherent idx fs r s) :
    (getName r s).fst = Except.ok r.project_name ∧
    Coherent idx fs r (getName r s).snd := by
  cases hn : s.name with
  | some v =>
    have hv := h.hname v hn
    constructor
    · simp [getName, hn, hv]
    · simpa [getName, hn] using h
  | none =>
    constructor
    · simp [getName, hn]
    · simpa [getName, hn] using coherent_setName idx fs r s h

/-- Helper: a memoized source directory read returns the stateless source
directory and keeps the cache coherent. -/
theorem getSourceDirectory_spec (idx : String) (fs : ReqFS)
    (r : RawRequirement) (s : ReqCache) (h : Coherent idx fs r s) :
    (getSourceDirectory r s).fst = Except.ok r.source_dir ∧
    Coherent idx fs r (getSourceDirectory r s).snd := by
  cases hn : s.source_directory with
  | some v =>
    have hv := h.hsrc v hn
    constructor
    · simp [getSourceDirectory, hn, hv]
    · simpa [getSourceDirectory, hn] using h
  | none =>
    constructor
    · simp [getSourceDirectory, hn]
    · simpa [getSourceDirectory, hn] using
        coherent_setSourceDirectory idx fs r s h

/-- Helper: a memoized transitive flag read returns the stateless flag and
keeps the cache coherent. -/
theorem getIsTransitive_spec (idx : String) (fs : ReqFS)
    (r : RawRequirement) (s : ReqCache) (h : Coherent idx fs r s) :
    (getIsTransitive r s).fst = Except.ok r.comes_from_is_requirement ∧
    Coherent idx fs r (getIsTransitive r s).snd := by
  cases hn : s.is_transitive with
  | some v =>
    have hv := h.htrans v hn
    constructor
    · simp [getIsTransitive, hn, hv]
    · simpa [getIsTransitive, hn] using h
  | none =>
    constructor
    · simp [getIsTransitive, hn]
    · simpa [getIsTransitive, hn] using
        coherent_setIsTransitive idx fs r s h

/-- Helper: a memoized editable flag read returns the stateless flag and
keeps the cache coherent. -/
theorem getIsEditable_spec (idx : String) (fs : ReqFS) (r : RawRequirement)
    (s : ReqCache) (h : Coherent idx fs r s) :
    (getIsEditable r s).fst = Except.ok r.editable ∧
    Coherent idx fs r (getIsEditable r s).snd := by
  cases hn : s.is_editable with
  | some v =>
    have hv := h.hedit v hn
    constructor
    · simp [getIsEditable, hn, hv]
    · simpa [getIsEditable, hn] using h
  | none =>
    constructor
    · simp [getIsEditable, hn]
    · simpa [getIsEditable, hn] using coherent_setIsEditable idx fs r s h

/-- Helper: a memoized wheel flag read returns the stateless wheel flag
result and keeps the cache coherent. -/
theorem getIsWheel_spec (idx : String) (fs : ReqFS) (r : RawRequirement)
    (s : ReqCache) (h : Coherent idx fs r s) :
    (getIsWheel fs r s).fst = pureIsWheel fs r ∧
    Coherent idx fs r (getIsWheel fs r s).snd := by
  cases hn : s.is_wheel with
  | some v =>
    have hv := h.hwheel v hn
    constructor
    · simp [getIsWheel, hn, hv]
    · simpa [getIsWheel, hn] using h
  | none =>
    obtain ⟨hd1, hd2⟩ := getSourceDirectory_spec idx fs r s h
    have hpure : Requirement_is_wheel fs.isfile fs.wheel_glob r.project_name
        r.source_dir = pureIsWheel fs r := rfl
    cases hiw : pureIsWheel fs r with
    | ok w =>
      constructor
      · simp [getIsWheel, hn, hd1, hpure, hiw]
      · simpa [getIsWheel, hn, hd1, hpure, hiw] using
          coherent_setIsWheel idx fs r _ hd2 w hiw
    | error e =>
      constructor
      · simp [getIsWheel, hn, hd1, hpure, hiw]
      · simpa [getIsWheel, hn, hd1, hpure, hiw] using hd2

/-- Helper: a memoized sdist metadata read returns the stateless sdist
metadata result and keeps the cache coherent. -/
theorem getSdistMetadata_spec (idx : String) (fs : ReqFS)
    (r : RawRequirement) (s : ReqCache) (h : Coherent idx fs r s) :
    (getSdistMetadata fs r s).fst = pureSdistMetadata fs r ∧
    Coherent idx fs r (getSdistMetadata fs r s).snd := by
  cases hn : s.sdist_metadata with
  | some v =>
    have hv := h.hsdist v hn
    constructor
    · simp [getSdistMetadata, hn, hv]
    · simpa [getSdistMetadata, hn] using h
  | none =>
    obtain ⟨hw1, hw2⟩ := getIsWheel_spec idx fs r s h
    cases hiw : pureIsWheel fs r with
    | ok w =>
      cases hs : sdist_metadata_logic w r.pkg_info with
      | ok m =>
        have hpure : pureSdistMetadata fs r = Except.ok m := by
          simp [pureSdistMetadata, hiw, hs]
        constructor
        · simp [getSdistMetadata, hn, hw1, hiw, hs, hpure]
        · simpa [getSdistMetadata, hn, hw1, hiw, hs] using
            coherent_setSdistMetadata idx fs r _ hw2 m hpure
      | error e =>
        constructor
        · simp [getSdistMetadata, hn, hw1, hiw, hs, pureSdistMetadata]
        · simpa [getSdistMetadata, hn, hw1, hiw, hs] using hw2
    | error e =>
      constructor
      · simp [getSdistMetadata, hn, hw1, hiw, pureSdistMetadata]
      · simpa [getSdistMetadata, hn, hw1, hiw] using hw2

/-- Helper: a memoized wheel metadata read returns the stateless wheel
metadata result and keeps the cache coherent. -/
theorem getWheelMetadata_spec (idx : String) (fs : ReqFS)
    (r : RawRequirement) (s : ReqCache) (h : Coherent idx fs r s) :
    (getWheelMetadata fs r s).fst = pureWheelMetadata fs r ∧
    Coherent idx fs r (getWheelMetadata fs r s).snd := by
  cases hn : s.wheel_metadata with
  | some v =>
    have hv := h.hwmeta v hn
    constructor
    · simp [getWheelMetadata, hn, hv]
    · simpa [getWheelMetadata, hn] using h
  | none =>
    obtain ⟨hw1, hw2⟩ := getIsWheel_spec idx fs r s h
    cases hiw : pureIsWheel fs r with
    | ok w =>
      cases w with
      | false =>
        constructor
        · simp [getWheelMetadata, hn, hw1, hiw, pureWheelMetadata,
            wheel_metadata_logic]
        · simpa [getWheelMetadata, hn, hw1, hiw] using hw2
      | true =>
        obtain ⟨hd1, hd2⟩ := getSourceDirectory_spec idx fs r _ hw2
        cases hm : wheel_metadata_logic true
            (fs.find_distributions r.source_dir) r.source_dir with
        | ok m =>
          have hpure : pureWheelMetadata fs r = Except.ok m := by
            simp [pureWheelMetadata, hiw, hm]
          constructor
          · simp [getWheelMetadata, hn, hw1, hiw, hd1, hm, hpure]
          · simpa [getWheelMetadata, hn, hw1, hiw, hd1, hm] using
              coherent_setWheelMetadata idx fs r _ hd2 m hpure
        | error e =>
          constructor
          · simp [getWheelMetadata, hn, hw1, hiw, hd1, hm,
              pureWheelMetadata]
          · simpa [getWheelMetadata, hn, hw1, hiw, hd1, hm] using hd2
    | error e =>
      constructor
      · simp [getWheelMetadata, hn, hw1, hiw, pureWheelMetadata]
      · simpa [getWheelMetadata, hn, hw1, hiw] using hw2

/-- Helper: a memoized version read returns the stateless version result
and keeps the cache coherent. -/
theorem getVersion_spec (idx : String) (fs : ReqFS) (r : RawRequirement)
    (s : ReqCache) (h : Coherent idx fs r s) :
    (getVersion fs r s).fst = pureVersion fs r ∧
    Coherent idx fs r (getVersion fs r s).snd := by
  cases hn : s.version with
  | some v =>
    have hv := h.hver v hn
    constructor
    · simp [getVersion, hn, hv]
    · simpa [getVersion, hn] using h
  | none =>
    obtain ⟨hw1, hw2⟩ := getIsWheel_spec idx fs r s h
    cases hiw : pureIsWheel fs r with
    | ok w =>
      cases w with
      | true =>
        obtain ⟨hm1, hm2⟩ := getWheelMetadata_spec idx fs r _ hw2
        cases hm : pureWheelMetadata fs r with
        | ok m =>
          have hpure : pureVersion fs r = Except.ok (some m.version) := by
            simp [pureVersion, hiw, hm]
          constructor
          · simp [getVersion, hn, hw1, hiw, hm1, hm, hpure]
          · simpa [getVersion, hn, hw1, hiw, hm1, hm] using
              coherent_setVersion idx fs r _ hm2 (some m.version) hpure
        | error e =>
          constructor
          · simp [getVersion, hn, hw1, hiw, hm1, hm, pureVersion]
          · simpa [getVersion, hn, hw1, hiw, hm1, hm] using hm2
      | false =>
        obtain ⟨hm1, hm2⟩ := getSdistMetadata_spec idx fs r _ hw2
        cases hm : pureSdistMetadata fs r with
        | ok m =>
          have hpure : pureVersion fs r = Except.ok (msgGet m "Version") := by
            simp [pureVersion, hiw, hm]
          constructor
          · simp [getVersion, hn, hw1, hiw, hm1, hm, hpure]
          · simpa [getVersion, hn, hw1, hiw, hm1, hm] using
              coherent_setVersion idx fs r _ hm2 (msgGet m "Version") hpure
        | error e =>
          constructor
          · simp [getVersion, hn, hw1, hiw, hm1, hm, pureVersion]
          · simpa [getVersion, hn, hw1, hiw, hm1, hm] using hm2
    | error e =>
      constructor
      · simp [getVersion, hn, hw1, hiw, pureVersion]
      · simpa [getVersion, hn, hw1, hiw] using hw2

/-- Helper: a memoized related archives read returns the stateless related
archives result and keeps the cache coherent. -/
theorem getRelatedArchives_spec (idx : String) (fs : ReqFS)
    (r : RawRequirement) (s : ReqCache) (h : Coherent idx fs r s) :
    (getRelatedArchives idx fs r s).fst = pureRelatedArchives idx fs r ∧
    Coherent idx fs r (getRelatedArchives idx fs r s).snd := by
  cases hn : s.related_archives with
  | some v =>
    have hv := h.hrel v hn
    constructor
    · simp [getRelatedArchives, hn, hv]
    · simpa [getRelatedArchives, hn] using h
  | none =>
    obtain ⟨hn1, hn2⟩ := getName_spec idx fs r s h
    obtain ⟨hv1, hv2⟩ := getVersion_spec idx fs r _ hn2
    cases hvv : pureVersion fs r with
    | ok w =>
      cases w with
      | some ver =>
        have hpure : pureRelatedArchives idx fs r = Except.ok
            (related_archives idx r.project_name ver
              fs.source_index_listing) := by
          simp [pureRelatedArchives, hvv]
        constructor
        · simp [getRelatedArchives, hn, hn1, hv1, hvv, hpure]
        · simpa [getRelatedArchives, hn, hn1, hv1, hvv] using
            coherent_setRelated idx fs r _ hv2 _ hpure
      | none =>
        constructor
        · simp [getRelatedArchives, hn, hn1, hv1, hvv, pureRelatedArchives]
        · simpa [getRelatedArchives, hn, hn1, hv1, hvv] using hv2
    | error e =>
      constructor
      · simp [getRelatedArchives, hn, hn1, hv1, hvv, pureRelatedArchives]
      · simpa [getRelatedArchives, hn, hn1, hv1, hvv] using hv2

/-- Helper: any derived field read on a coherent cache returns the
stateless field value and keeps the cache coherent. -/
theorem readField_spec (idx : String) (fs : ReqFS) (r : RawRequirement)
    (f : RField) (s : ReqCache) (h : Coherent idx fs r s) :
    (readField idx fs r f s).fst = pureField idx fs r f ∧
    Coherent idx fs r (readField idx fs r f s).snd := by
  cases f with
  | fname =>
    obtain ⟨h1, h2⟩ := getName_spec idx fs r s h
    exact ⟨by simp [readField, pureField, h1, Except.map], by simpa [readField] using h2⟩
  | fversion =>
    obtain ⟨h1, h2⟩ := getVersion_spec idx fs r s h
    exact ⟨by simp [readField, pureField, h1, Except.map], by simpa [readField] using h2⟩
  | fformat =>
    obtain ⟨h1, h2⟩ := getIsWheel_spec idx fs r s h
    exact ⟨by simp [readField, pureField, h1, Except.map], by simpa [readField] using h2⟩
  | flineage =>
    obtain ⟨h1, h2⟩ := getIsTransitive_spec idx fs r s h
    exact ⟨by simp [readField, pureField, h1, Except.map], by simpa [readField] using h2⟩
  | feditable =>
    obtain ⟨h1, h2⟩ := getIsEditable_spec idx fs r s h
    exact ⟨by simp [readField, pureField, h1, Except.map], by simpa [readField] using h2⟩
  | frelated =>
    obtain ⟨h1, h2⟩ := getRelatedArchives_spec idx fs r s h
    exact ⟨by simp [readField, pureField, h1, Except.map], by simpa [readField] using h2⟩

/-- Helper: the empty cache is coherent. -/
theorem coherent_empty (idx : String) (fs : ReqFS) (r : RawRequirement) :
    Coherent idx fs r emptyCache := by
  refine ⟨?_, ?_, ?_, ?_, ?_, ?_, ?_, ?_, ?_⟩ <;> intro v hv <;>
    simp [emptyCache] at hv

/-- Helper: the cache after any sequence of derived field reads from a
fresh descriptor is coherent. -/
theorem readFields_coherent (idx : String) (fs : ReqFS)
    (r : RawRequirement) (ops : List RField) (s : ReqCache)
    (h : Coherent idx fs r s) :
    Coherent idx fs r (readFields idx fs r ops s) := by
  induction ops generalizing s with
  | nil => exact h
  | cons f ops ih =>
    exact ih _ (readField_spec idx fs r f s h).2

/-- Claim C9: constructing a descriptor twice from the same raw requirement
and settings, with the filesystem unchanged, yields identical values for
every derived field, whatever sequence of memoized field reads each
descriptor performed before: every read equals the stateless value of the
field, so no computation has a side effect that alters a later one. -/
theorem C9_descriptor_determinism (idx : String) (fs : ReqFS)
    (r : RawRequirement) (ops1 ops2 : List RField) (f : RField) :
    (readField idx fs r f (readFields idx fs r ops1 emptyCache)).fst
      = (readField idx fs r f (readFields idx fs r ops2 emptyCache)).fst ∧
    (readField idx fs r f (readFields idx fs r ops1 emptyCache)).fst
      = pureField idx fs r f := by
  have hv : ∀ ops : List RField,
      (readField idx fs r f (readFields idx fs r ops emptyCache)).fst
        = pureField idx fs r f := by
    intro ops
    exact (readField_spec idx fs r f _
      (readFields_coherent idx fs r ops _ (coherent_empty idx fs r))).1
  exact ⟨(hv ops1).trans (hv ops2).symm, hv ops1⟩

end PipAccel
